import Mathlib

/-!
Shallow embedding of the LXD provider environment lifecycle controller
(`provider/lxd/environ.go`): environment construction with profile
initialization, Bootstrap with trust establishment, Destroy with
ingress-rule cleanup, DestroyController with the hosted-model instance
sweep and certificate removal, and thread-safe configuration access.

The hypervisor (LXD server) is modelled as an explicit state record
(`RawState`) holding the trust store, the profile store, the instance
set, the open ingress rules, and an injected fault schedule that lets a
remote call fail with an arbitrary error (modelling network or server
failures).  Every remote call appends an `Event` to a trace, so that
claims of the form "operation X never makes call Y" are statable.
Effectful operations have type `M α = RawState → Except GoError α ×
RawState` and are written as explicit matches mirroring the Go source's
`if err != nil { return ... }` early returns.
-/

deriving instance DecidableEq for Except

namespace JujuLxd

/-- Error model: Go errors as the source discriminates them.
`errors.IsNotFound err` holds exactly for `notFound`; LXD's
"certificate already exists" registration failure is `alreadyExists`;
everything else is an opaque message. -/
inductive GoError where
  | notFound
  | alreadyExists
  | other (msg : String)
deriving DecidableEq, Repr

/-- A named client certificate with its PEM-encoded material
(`lxdclient.Cert`). -/
structure Cert where
  name : String
  certPEM : String
  keyPEM : String
deriving DecidableEq, Repr

/-- Modelled from the spec: `Cert.Fingerprint` lives in
`tools/lxdclient` (not under `src/`); the spec says the fingerprint is
"derived, not stored redundantly — fingerprint is recomputed from
certificate bytes", and the computation can fail on invalid
certificate material.  Modelled as an injective derivation from the
certificate bytes, failing exactly on empty material. -/
def Cert.Fingerprint (c : Cert) : Except GoError String :=
  if c.certPEM = "" then Except.error (GoError.other "invalid certificate material")
  else Except.ok ("sha256:" ++ c.certPEM)

/-- The fingerprint string a stored certificate answers to (the value
`Cert.Fingerprint` yields when it succeeds). -/
def Cert.fp (c : Cert) : String := "sha256:" ++ c.certPEM

/-- Modelled from the spec: the cloud spec is an "immutable descriptor
of the hypervisor endpoint and credentials (client certificate,
optional server certificate, connection locality)"; only the client
certificate is read by the code under verification. -/
structure CloudSpec where
  clientCert : Option Cert
deriving DecidableEq, Repr

/-- Modelled from the spec: `getCerts` (credentials helper, not under
`src/`) extracts the configured client certificate from the cloud
spec; `ok` is false when none is configured. -/
def getCerts (spec : CloudSpec) : Option Cert := spec.clientCert

/-- Raw configuration data handed to the provider (`config.Config`):
the attributes the code under verification reads, plus a validity flag
standing for whether validation accepts it. -/
structure Config where
  name : String
  uuid : String
  valid : Bool
deriving DecidableEq, Repr

/-- `environConfig`: the validated configuration snapshot; it embeds
the raw `Config` (Go: `ecfg.Config`). -/
structure environConfig where
  Config : Config
deriving DecidableEq, Repr

/-- `ecfg.Name()`. -/
def environConfig.Name (e : environConfig) : String := e.Config.name

/-- `ecfg.UUID()`. -/
def environConfig.UUID (e : environConfig) : String := e.Config.uuid

/-- Modelled from the spec: `newValidConfig` (config.go, not under
`src/`) validates and parses the configuration, yielding the snapshot
on success and an error on invalid configuration. -/
def newValidConfig (cfg : Config) : Except GoError environConfig :=
  if cfg.valid then Except.ok ⟨cfg⟩ else Except.error (GoError.other "invalid config")

/-- Modelled from the spec: `instance.NewNamespace` (not under `src/`)
derives the resource-naming namespace from the environment UUID and
can fail on an invalid UUID; modelled as failing exactly on the empty
UUID. -/
def NewNamespace (uuid : String) : Except GoError String :=
  if uuid = "" then Except.error (GoError.other "invalid UUID") else Except.ok ("juju-" ++ uuid)

/-- A remote instance as the hypervisor reports it: an identifier and
a string-keyed metadata mapping carrying the ownership tags. -/
structure RawInstance where
  id : String
  metadata : List (String × String)
deriving DecidableEq, Repr

/-- Modelled from the spec: `tags.JujuModel` (environs/tags, not under
`src/`), the metadata key of the owning model/environment UUID. -/
def JujuModel : String := "juju-model-uuid"

/-- Modelled from the spec: `tags.JujuController` (environs/tags, not
under `src/`), the metadata key of the owning controller UUID. -/
def JujuController : String := "juju-controller-uuid"

/-- Go's `strings.HasPrefix` on the characters of the strings (stated
on `String.data` so that concrete instances evaluate by kernel
reduction). -/
def strStartsWith (s pfx : String) : Bool := pfx.data.isPrefixOf s.data

/-- Go map lookup `metadata[k]`: the value when the key is present,
the zero value `""` otherwise. -/
def lookupTag (m : List (String × String)) (k : String) : String :=
  match m.find? fun kv => kv.1 == k with
  | some kv => kv.2
  | none => ""

/-- Profile settings: an ordered key/value association. -/
abbrev ProfileConfig := List (String × String)

/-- Remote calls recorded in the trace, one constructor per operation
of the consumed hypervisor interface plus the two generic-strategy
entry points. -/
inductive Event where
  | certByFingerprint (fp : String)
  | addCert (nm : String)
  | removeCertByFingerprint (fp : String)
  | hasProfile (nm : String)
  | createProfile (nm : String) (cfg : ProfileConfig)
  | listInstances (pfx : String)
  | removeInstances (pfx : String) (ids : List String)
  | ingressRules
  | closePorts (rules : List String)
  | bootstrapEnv
  | destroyEnv
deriving DecidableEq, Repr

/-- Injected failures, one slot per remote operation: `some e` makes
the next call to that operation fail with `e` (modelling a network or
server failure); `none` gives the operation's deterministic behavior
on the current hypervisor state. -/
structure Faults where
  certByFingerprint : Option GoError := none
  addCert : Option GoError := none
  removeCert : Option GoError := none
  hasProfile : Option GoError := none
  createProfile : Option GoError := none
  listInstances : Option GoError := none
  removeInstances : Option GoError := none
  ingressRules : Option GoError := none
  closePorts : Option GoError := none
  bootstrapEnv : Option GoError := none
  destroyEnv : Option GoError := none
deriving DecidableEq, Repr

/-- The result the generic bootstrap strategy produces on success
(`environs.BootstrapResult`, opaque to this layer). -/
structure BootstrapResult where
  arch : String
deriving DecidableEq, Repr

/-- The hypervisor-side world the raw provider client talks to: trust
store, profile store, instance set, open ingress rules, the
connection's own certificate (`raw.remote.Cert`), the generic
strategy's canned result, the fault schedule, and the call trace. -/
structure RawState where
  certs : List Cert
  profiles : List (String × ProfileConfig)
  instances : List RawInstance
  rules : List String
  remoteCert : Option Cert
  baseResult : BootstrapResult
  faults : Faults
  trace : List Event
deriving DecidableEq, Repr

/-- Effectful computations over the hypervisor state: Go's
`(value, error)` return paired with the evolved state. -/
abbrev M (α : Type) : Type := RawState → Except GoError α × RawState

/-- Record that a remote call was made. -/
def logEvent (e : Event) (s : RawState) : RawState :=
  { s with trace := s.trace ++ [e] }

/-- Whether the trust store holds a certificate with the given
fingerprint. -/
def hasCertFp (certs : List Cert) (fp : String) : Bool :=
  certs.any fun c => Cert.fp c == fp

/-- `raw.CertByFingerprint(fp)`: found, not-found, or an injected
failure. -/
def certByFingerprintOp (fp : String) : M Unit := fun s =>
  let s1 := logEvent (Event.certByFingerprint fp) s
  match s.faults.certByFingerprint with
  | some e => (Except.error e, s1)
  | none =>
    if hasCertFp s.certs fp then (Except.ok (), s1)
    else (Except.error GoError.notFound, s1)

/-- `raw.AddCert(cert)`: registers the certificate; fails with
`alreadyExists` when one with the same fingerprint is present, or with
an injected failure. -/
def addCertOp (c : Cert) : M Unit := fun s =>
  let s1 := logEvent (Event.addCert c.name) s
  match s.faults.addCert with
  | some e => (Except.error e, s1)
  | none =>
    if hasCertFp s.certs (Cert.fp c) then (Except.error GoError.alreadyExists, s1)
    else (Except.ok (), { s1 with certs := s1.certs ++ [c] })

/-- `raw.RemoveCertByFingerprint(fp)`: removes the matching
certificate; `notFound` when absent, or an injected failure. -/
def removeCertByFingerprintOp (fp : String) : M Unit := fun s =>
  let s1 := logEvent (Event.removeCertByFingerprint fp) s
  match s.faults.removeCert with
  | some e => (Except.error e, s1)
  | none =>
    if hasCertFp s.certs fp then
      (Except.ok (), { s1 with certs := s1.certs.filter fun c => !(Cert.fp c == fp) })
    else (Except.error GoError.notFound, s1)

/-- Whether the profile store holds a profile with the given name. -/
def hasProfileStore (profiles : List (String × ProfileConfig)) (nm : String) : Bool :=
  profiles.any fun p => p.1 == nm

/-- `raw.HasProfile(name)`. -/
def hasProfileOp (nm : String) : M Bool := fun s =>
  let s1 := logEvent (Event.hasProfile nm) s
  match s.faults.hasProfile with
  | some e => (Except.error e, s1)
  | none => (Except.ok (hasProfileStore s.profiles nm), s1)

/-- `raw.CreateProfile(name, settings)`. -/
def createProfileOp (nm : String) (cfg : ProfileConfig) : M Unit := fun s =>
  let s1 := logEvent (Event.createProfile nm cfg) s
  match s.faults.createProfile with
  | some e => (Except.error e, s1)
  | none => (Except.ok (), { s1 with profiles := s1.profiles ++ [(nm, cfg)] })

/-- Modelled from the spec: `env.prefixedInstances` (broker file, not
under `src/`) "lists all hypervisor instances whose identifiers start
with the given naming prefix". -/
def prefixedInstancesOp (pfx : String) : M (List RawInstance) := fun s =>
  let s1 := logEvent (Event.listInstances pfx) s
  match s.faults.listInstances with
  | some e => (Except.error e, s1)
  | none => (Except.ok (s.instances.filter fun i => strStartsWith i.id pfx), s1)

/-- `raw.RemoveInstances(prefix, names...)`: one batched removal of
the named instances. -/
def removeInstancesOp (pfx : String) (ids : List String) : M Unit := fun s =>
  let s1 := logEvent (Event.removeInstances pfx ids) s
  match s.faults.removeInstances with
  | some e => (Except.error e, s1)
  | none => (Except.ok (), { s1 with instances := s1.instances.filter fun i => !(ids.contains i.id) })

/-- Modelled from the spec: `env.IngressRules()` (network file, not
under `src/`) enumerates the currently open ingress rules. -/
def ingressRulesOp : M (List String) := fun s =>
  let s1 := logEvent Event.ingressRules s
  match s.faults.ingressRules with
  | some e => (Except.error e, s1)
  | none => (Except.ok s.rules, s1)

/-- Modelled from the spec: `env.ClosePorts(rules)` (network file, not
under `src/`) closes the given ingress rules. -/
def closePortsOp (rules : List String) : M Unit := fun s =>
  let s1 := logEvent (Event.closePorts rules) s
  match s.faults.closePorts with
  | some e => (Except.error e, s1)
  | none => (Except.ok (), { s1 with rules := s1.rules.filter fun r => !(rules.contains r) })

/-- `env.base.BootstrapEnv(ctx, params)`: the pluggable generic
bootstrap strategy, out of scope; returns its canned result or an
injected failure. -/
def bootstrapEnvOp : M BootstrapResult := fun s =>
  let s1 := logEvent Event.bootstrapEnv s
  match s.faults.bootstrapEnv with
  | some e => (Except.error e, s1)
  | none => (Except.ok s.baseResult, s1)

/-- `env.base.DestroyEnv()`: the pluggable generic destroy strategy,
out of scope; succeeds or fails with an injected failure. -/
def destroyEnvOp : M Unit := fun s =>
  let s1 := logEvent Event.destroyEnv s
  match s.faults.destroyEnv with
  | some e => (Except.error e, s1)
  | none => (Except.ok (), s1)

/-- The `environ` struct: `local` is renamed `isLocal` and `namespace`
is renamed `nspace` (both are Lean keywords).  The raw provider handle
and the base strategy are the ambient `RawState`. -/
structure environ where
  cloud : CloudSpec
  isLocal : Bool
  name : String
  uuid : String
  nspace : String
  ecfg : environConfig
deriving DecidableEq, Repr

/-- `env.profileName()`: the fixed prefix concatenated with the
configured environment name. -/
def profileName (env : environ) : String := "juju-" ++ environConfig.Name env.ecfg

/-- `defaultProfileConfig`. -/
def defaultProfileConfig : ProfileConfig :=
  [("boot.autostart", "true"), ("security.nesting", "true")]

/-- `env.initProfile()`: check existence by name; present means done,
absent means create with the default settings. -/
def initProfile (env : environ) : M Unit := fun s =>
  match hasProfileOp (profileName env) s with
  | (Except.error e, s1) => (Except.error e, s1)
  | (Except.ok true, s1) => (Except.ok (), s1)
  | (Except.ok false, s1) => createProfileOp (profileName env) defaultProfileConfig s1

/-- `newEnviron`: validate the configuration, derive the namespace
from the UUID, connect to the hypervisor (`newRawProvider`), build the
environment object and initialize its profile; any failure returns the
error with no environment. -/
def newEnviron (isLocal : Bool) (spec : CloudSpec) (cfg : Config)
    (newRawProvider : CloudSpec → Bool → Except GoError Unit) : M environ := fun s =>
  match newValidConfig cfg with
  | Except.error e => (Except.error e, s)
  | Except.ok ecfg =>
    match NewNamespace cfg.uuid with
    | Except.error e => (Except.error e, s)
    | Except.ok ns =>
      match newRawProvider spec isLocal with
      | Except.error e => (Except.error e, s)
      | Except.ok _ =>
        let env : environ :=
          { cloud := spec, isLocal := isLocal, name := environConfig.Name ecfg,
            uuid := environConfig.UUID ecfg, nspace := ns, ecfg := ecfg }
        match initProfile env s with
        | (Except.error e, s1) => (Except.error e, s1)
        | (Except.ok _, s1) => (Except.ok env, s1)

/-- `env.Name()`. -/
def environ.Name (env : environ) : String := env.name

/-- `env.SetConfig(cfg)`: validate, and only on success replace the
stored snapshot (the mutex is the serialization of this read/replace;
the returned `environ` is the post-call object). -/
def SetConfig (env : environ) (cfg : Config) : Except GoError Unit × environ :=
  match newValidConfig cfg with
  | Except.error e => (Except.error e, env)
  | Except.ok ecfg => (Except.ok (), { env with ecfg := ecfg })

/-- `env.Config()`: the stored configuration snapshot. -/
def environ.Config (env : environ) : Config := env.ecfg.Config

/-- `env.Bootstrap(ctx, params)`: for a local hypervisor, establish
trust (fail without a client certificate; look the fingerprint up;
register the certificate when not found; any other lookup error, or
any registration error, aborts), then delegate to the generic
bootstrap strategy. -/
def Bootstrap (env : environ) : M BootstrapResult := fun s =>
  if env.isLocal then
    match getCerts env.cloud with
    | none => (Except.error (GoError.other "cannot bootstrap without client certificate"), s)
    | some clientCert =>
      match Cert.Fingerprint clientCert with
      | Except.error e => (Except.error e, s)
      | Except.ok fingerprint =>
        match certByFingerprintOp fingerprint s with
        | (Except.error GoError.notFound, s1) =>
          match addCertOp clientCert s1 with
          | (Except.error e, s2) => (Except.error e, s2)
          | (Except.ok _, s2) => bootstrapEnvOp s2
        | (Except.error e, s1) => (Except.error e, s1)
        | (Except.ok _, s1) => bootstrapEnvOp s1
  else bootstrapEnvOp s

/-- `env.Destroy()`: enumerate the open ingress rules, close them when
any exist, then delegate to the generic destroy strategy; the first
failure aborts. -/
def Destroy (_env : environ) : M Unit := fun s =>
  match ingressRulesOp s with
  | (Except.error e, s1) => (Except.error e, s1)
  | (Except.ok rules, s1) =>
    match (if rules.length > 0 then closePortsOp rules s1 else (Except.ok (), s1)) with
    | (Except.error e, s2) => (Except.error e, s2)
    | (Except.ok _, s2) => destroyEnvOp s2

/-- The classification loop of `destroyHostedModelResources` (lines
241-251): skip an instance whose model tag is this environment's UUID,
skip one whose controller tag is not the target controller UUID,
collect the rest. -/
def hostedModelTargets (instances : List RawInstance) (controllerUUID uuid : String) :
    List String :=
  instances.filterMap fun inst =>
    if lookupTag inst.metadata JujuModel = uuid then none
    else if lookupTag inst.metadata JujuController ≠ controllerUUID then none
    else some inst.id

/-- `env.destroyHostedModelResources(controllerUUID)`: list the
`juju-`-prefixed instances, classify them, and remove the collected
names in one batch (no call when none were collected). -/
def destroyHostedModelResources (env : environ) (controllerUUID : String) : M Unit := fun s =>
  match prefixedInstancesOp "juju-" s with
  | (Except.error e, s1) => (Except.error e, s1)
  | (Except.ok instances, s1) =>
    let names := hostedModelTargets instances controllerUUID env.uuid
    if names.length > 0 then removeInstancesOp "juju-" names s1
    else (Except.ok (), s1)

/-- `env.removeCertificate()`: nothing to do without a connection
certificate; otherwise remove by fingerprint, tolerating not-found as
success. -/
def removeCertificate (_env : environ) : M Unit := fun s =>
  match s.remoteCert with
  | none => (Except.ok (), s)
  | some cert =>
    match Cert.Fingerprint cert with
    | Except.error e => (Except.error e, s)
    | Except.ok fingerprint =>
      match removeCertByFingerprintOp fingerprint s with
      | (Except.error GoError.notFound, s1) => (Except.ok (), s1)
      | (Except.error e, s1) => (Except.error e, s1)
      | (Except.ok _, s1) => (Except.ok (), s1)

/-- `env.DestroyController(controllerUUID)`: ordinary Destroy of self,
then the hosted-model sweep, then — locally only — certificate
removal; the first failure aborts. -/
def DestroyController (env : environ) (controllerUUID : String) : M Unit := fun s =>
  match Destroy env s with
  | (Except.error e, s1) => (Except.error e, s1)
  | (Except.ok _, s1) =>
    match destroyHostedModelResources env controllerUUID s1 with
    | (Except.error e, s2) => (Except.error e, s2)
    | (Except.ok _, s2) =>
      if env.isLocal then removeCertificate env s2 else (Except.ok (), s2)

/-- The environment object `newEnviron` builds once configuration
validation, namespace derivation and the hypervisor connection have
succeeded (named here so theorems can refer to it). -/
def builtEnviron (isLocal : Bool) (spec : CloudSpec) (cfg : Config) : environ :=
  { cloud := spec, isLocal := isLocal, name := cfg.name, uuid := cfg.uuid,
    nspace := "juju-" ++ cfg.uuid, ecfg := ⟨cfg⟩ }

/-- An event that touches the certificate trust store. -/
def certEvent : Event → Bool
  | Event.certByFingerprint _ => true
  | Event.addCert _ => true
  | Event.removeCertByFingerprint _ => true
  | _ => false

/-- An event of the hosted-model instance sweep. -/
def sweepEvent : Event → Bool
  | Event.listInstances _ => true
  | Event.removeInstances _ _ => true
  | _ => false

/-- How many stored certificates answer to the given fingerprint. -/
def countFp (certs : List Cert) (fp : String) : Nat :=
  (certs.filter fun c => Cert.fp c == fp).length

/-- The no-fault schedule: every remote call behaves according to the
hypervisor state. -/
def noFaults : Faults := {}

/-- Scenario instance `juju-0`: model abc-123, controller ctrl-1. -/
def inst0 : RawInstance := ⟨"juju-0", [(JujuModel, "abc-123"), (JujuController, "ctrl-1")]⟩

/-- Scenario instance `juju-1`: model xyz-999, controller ctrl-1. -/
def inst1 : RawInstance := ⟨"juju-1", [(JujuModel, "xyz-999"), (JujuController, "ctrl-1")]⟩

/-- Scenario instance `juju-2`: model xyz-999, controller ctrl-2. -/
def inst2 : RawInstance := ⟨"juju-2", [(JujuModel, "xyz-999"), (JujuController, "ctrl-2")]⟩

/-- Hypervisor state of the spec's three-instance scenario. -/
def s0 : RawState :=
  { certs := [], profiles := [], instances := [inst0, inst1, inst2], rules := [],
    remoteCert := none, baseResult := ⟨"amd64"⟩, faults := noFaults, trace := [] }

/-- Environment of the scenario: name controller, UUID abc-123. -/
def envA : environ :=
  { cloud := ⟨none⟩, isLocal := false, name := "controller", uuid := "abc-123",
    nspace := "juju-abc-123", ecfg := ⟨⟨"controller", "abc-123", true⟩⟩ }

/-- A concrete client certificate. -/
def certW : Cert := ⟨"client-cert", "PEMDATA", "KEY"⟩

/-- A local-hypervisor environment configured with `certW`. -/
def envL : environ :=
  { cloud := ⟨some certW⟩, isLocal := true, name := "controller", uuid := "abc-123",
    nspace := "juju-abc-123", ecfg := ⟨⟨"controller", "abc-123", true⟩⟩ }

/-- Hypervisor state where the registration call fails with "already
exists" (e.g. a concurrent registration) while the lookup reports
not-found. -/
def sAE : RawState :=
  { certs := [], profiles := [], instances := [], rules := [], remoteCert := none,
    baseResult := ⟨"amd64"⟩, faults := { addCert := some GoError.alreadyExists }, trace := [] }

/-- A clean hypervisor state: empty stores, no faults. -/
def sClean : RawState :=
  { certs := [], profiles := [], instances := [], rules := [],
    remoteCert := none, baseResult := ⟨"amd64"⟩, faults := noFaults, trace := [] }

/-- A hypervisor state with one open ingress rule and no faults. -/
def sRules : RawState :=
  { certs := [], profiles := [], instances := [], rules := ["tcp:8080"],
    remoteCert := none, baseResult := ⟨"amd64"⟩, faults := noFaults, trace := [] }

/-- A hypervisor state whose connection holds `certW` while the trust
store is already empty (certificate removal will report not-found). -/
def sRC : RawState :=
  { certs := [], profiles := [], instances := [], rules := [],
    remoteCert := some certW, baseResult := ⟨"amd64"⟩, faults := noFaults, trace := [] }

/-- A hypervisor state where enumerating ingress rules fails. -/
def sIngFail : RawState :=
  { certs := [], profiles := [], instances := [], rules := [],
    remoteCert := none, baseResult := ⟨"amd64"⟩,
    faults := { ingressRules := some (GoError.other "boom") }, trace := [] }

/-! ### Helper lemmas shared by the claim theorems -/

/-- When fingerprint computation succeeds its value is the stored
fingerprint key. -/
theorem fp_of_fingerprint_ok {c : Cert} {fp : String}
    (hfp : Cert.Fingerprint c = Except.ok fp) : Cert.fp c = fp := by
  by_cases he : c.certPEM = "" <;> simp [Cert.Fingerprint, he] at hfp
  simpa [Cert.fp] using hfp

/-- Whatever happens inside `Destroy`, the events it appends to the
trace are neither trust-store nor sweep events. -/
theorem destroy_trace_shape (env : environ) (s : RawState) :
    ∃ evs, (Destroy env s).2.trace = s.trace ++ evs
      ∧ ∀ e ∈ evs, certEvent e = false ∧ sweepEvent e = false := by
  cases hi : s.faults.ingressRules with
  | some er =>
    refine ⟨[Event.ingressRules], ?_, ?_⟩
    · simp [Destroy, ingressRulesOp, hi, logEvent]
    · intro e he; simp at he; simp [he, certEvent, sweepEvent]
  | none =>
    by_cases hr : s.rules.length > 0
    · cases hc : s.faults.closePorts with
      | some ec =>
        refine ⟨[Event.ingressRules, Event.closePorts s.rules], ?_, ?_⟩
        · simp [Destroy, ingressRulesOp, hi, hr, closePortsOp, hc, logEvent]
        · intro e he; simp at he
          rcases he with h | h <;> simp [h, certEvent, sweepEvent]
      | none =>
        refine ⟨[Event.ingressRules, Event.closePorts s.rules, Event.destroyEnv], ?_, ?_⟩
        · cases hd : s.faults.destroyEnv <;>
            simp [Destroy, ingressRulesOp, hi, hr, closePortsOp, hc, destroyEnvOp, hd, logEvent]
        · intro e he; simp at he
          rcases he with h | h | h <;> simp [h, certEvent, sweepEvent]
    · refine ⟨[Event.ingressRules, Event.destroyEnv], ?_, ?_⟩
      · cases hd : s.faults.destroyEnv <;>
          simp [Destroy, ingressRulesOp, hi, hr, destroyEnvOp, hd, logEvent]
      · intro e he; simp at he
        rcases he with h | h <;> simp [h, certEvent, sweepEvent]

/-- The hosted-model sweep appends no trust-store events to the
trace. -/
theorem sweep_trace_shape (env : environ) (ctrl : String) (s : RawState) :
    ∃ evs, (destroyHostedModelResources env ctrl s).2.trace = s.trace ++ evs
      ∧ ∀ e ∈ evs, certEvent e = false := by
  cases hi : s.faults.listInstances with
  | some er =>
    refine ⟨[Event.listInstances "juju-"], ?_, ?_⟩
    · simp [destroyHostedModelResources, prefixedInstancesOp, hi, logEvent]
    · intro e he; simp at he; simp [he, certEvent]
  | none =>
    by_cases hn : (hostedModelTargets (s.instances.filter fun i => strStartsWith i.id "juju-")
        ctrl env.uuid).length > 0
    · cases hrm : s.faults.removeInstances with
      | some er =>
        refine ⟨[Event.listInstances "juju-",
          Event.removeInstances "juju-" (hostedModelTargets
            (s.instances.filter fun i => strStartsWith i.id "juju-") ctrl env.uuid)], ?_, ?_⟩
        · simp [destroyHostedModelResources, prefixedInstancesOp, hi, hn,
            removeInstancesOp, hrm, logEvent]
        · intro e he; simp at he
          rcases he with h | h <;> simp [h, certEvent]
      | none =>
        refine ⟨[Event.listInstances "juju-",
          Event.removeInstances "juju-" (hostedModelTargets
            (s.instances.filter fun i => strStartsWith i.id "juju-") ctrl env.uuid)], ?_, ?_⟩
        · simp [destroyHostedModelResources, prefixedInstancesOp, hi, hn,
            removeInstancesOp, hrm, logEvent]
        · intro e he; simp at he
          rcases he with h | h <;> simp [h, certEvent]
    · refine ⟨[Event.listInstances "juju-"], ?_, ?_⟩
      · simp [destroyHostedModelResources, prefixedInstancesOp, hi, hn, logEvent]
      · intro e he; simp at he; simp [he, certEvent]

/-- Once validation, namespace derivation and the connection have
succeeded, `newEnviron` is the profile-initialization step on the
built environment. -/
theorem newEnviron_unfold_success (isLocal : Bool) (spec : CloudSpec) (cfg : Config)
    (nrp : CloudSpec → Bool → Except GoError Unit) (s : RawState)
    (hv : cfg.valid = true) (hu : cfg.uuid ≠ "") (hn : nrp spec isLocal = Except.ok ()) :
    newEnviron isLocal spec cfg nrp s =
      (match initProfile (builtEnviron isLocal spec cfg) s with
       | (Except.error e, s1) => (Except.error e, s1)
       | (Except.ok _, s1) => (Except.ok (builtEnviron isLocal spec cfg), s1)) := by
  simp [newEnviron, newValidConfig, NewNamespace, hv, hu, hn, builtEnviron,
    environConfig.Name, environConfig.UUID]

/-! ### The claims -/

/-- Claim C1: the hosted-model sweep of `DestroyController` collects
for removal exactly the instances whose controller tag equals the
target controller UUID and whose model tag differs from the
environment's own UUID; in the three-instance scenario with
environment UUID abc-123, `DestroyController ctrl-1` removes exactly
`juju-1`. -/
theorem sweep_classification_exact :
    (∀ (instances : List RawInstance) (ctrl uuid i : String),
        i ∈ hostedModelTargets instances ctrl uuid ↔
          ∃ inst, inst ∈ instances ∧ inst.id = i ∧
            lookupTag inst.metadata JujuModel ≠ uuid ∧
            lookupTag inst.metadata JujuController = ctrl)
    ∧ ((DestroyController envA "ctrl-1" s0).2.instances.map RawInstance.id
        = ["juju-0", "juju-2"]
      ∧ Event.removeInstances "juju-" ["juju-1"] ∈ (DestroyController envA "ctrl-1" s0).2.trace
      ∧ (DestroyController envA "ctrl-1" s0).1 = Except.ok ()) := by
  constructor
  · intro instances ctrl uuid i
    simp only [hostedModelTargets, List.mem_filterMap]
    constructor
    · rintro ⟨inst, hmem, hf⟩
      by_cases h1 : lookupTag inst.metadata JujuModel = uuid
      · simp [h1] at hf
      · by_cases h2 : lookupTag inst.metadata JujuController = ctrl
        · simp [h1, h2] at hf
          exact ⟨inst, hmem, hf, h1, h2⟩
        · simp [h1, h2] at hf
    · rintro ⟨inst, hmem, hid, h1, h2⟩
      exact ⟨inst, hmem, by simp [h1, h2, hid]⟩
  · exact ⟨by decide, by decide, by decide⟩

/-- Claim C2, counterexample: with a local hypervisor, a configured
client certificate, an empty trust store (so the fingerprint lookup
reports not-found) and a registration call that fails with "already
exists", `Bootstrap` returns that error instead of tolerating it and
never reaches the generic bootstrap strategy — refuting the claim
that an "already exists" registration outcome is tolerated as
success. -/
theorem bootstrap_already_exists_not_tolerated :
    (Bootstrap envL sAE).1 = Except.error GoError.alreadyExists
    ∧ Event.addCert "client-cert" ∈ (Bootstrap envL sAE).2.trace
    ∧ Event.bootstrapEnv ∉ (Bootstrap envL sAE).2.trace :=
  ⟨by decide, by decide, by decide⟩

/-- Claim C2, amended: during Bootstrap on a local hypervisor, the
trust-establishment step fails (equivalently, the generic strategy is
never reached) if and only if no client certificate is configured, or
the certificate's fingerprint cannot be computed, or the fingerprint
lookup fails for a reason other than not-found, or the lookup reports
not-found and the registration call fails for any reason ("already
exists" included); and whenever the trust step fails, Bootstrap
returns an error. -/
theorem bootstrap_trust_failure_characterization (env : environ) (s : RawState)
    (hl : env.isLocal = true) (ht : s.trace = []) :
    (Event.bootstrapEnv ∉ (Bootstrap env s).2.trace ↔
      (getCerts env.cloud = none
       ∨ ∃ c, getCerts env.cloud = some c ∧
          ((∃ e, Cert.Fingerprint c = Except.error e)
           ∨ ∃ fp, Cert.Fingerprint c = Except.ok fp ∧
              ((∃ e, s.faults.certByFingerprint = some e ∧ e ≠ GoError.notFound)
               ∨ ((s.faults.certByFingerprint = some GoError.notFound
                    ∨ (s.faults.certByFingerprint = none ∧ hasCertFp s.certs fp = false))
                  ∧ (s.faults.addCert ≠ none ∨ hasCertFp s.certs fp = true))))))
    ∧ (Event.bootstrapEnv ∉ (Bootstrap env s).2.trace →
        ∃ e, (Bootstrap env s).1 = Except.error e) := by
  cases hc : getCerts env.cloud with
  | none =>
    have hb : Bootstrap env s
        = (Except.error (GoError.other "cannot bootstrap without client certificate"), s) := by
      simp [Bootstrap, hl, hc]
    rw [hb]
    exact ⟨iff_of_true (by simp [ht]) (Or.inl rfl), fun _ => ⟨_, rfl⟩⟩
  | some c =>
    cases hfpr : Cert.Fingerprint c with
    | error ef =>
      have hb : Bootstrap env s = (Except.error ef, s) := by
        simp [Bootstrap, hl, hc, hfpr]
      rw [hb]
      exact ⟨iff_of_true (by simp [ht]) (Or.inr ⟨c, rfl, Or.inl ⟨ef, hfpr⟩⟩),
        fun _ => ⟨ef, rfl⟩⟩
    | ok fp =>
      have hfpc : Cert.fp c = fp := fp_of_fingerprint_ok hfpr
      cases h1 : s.faults.certByFingerprint with
      | none =>
        cases hstore : hasCertFp s.certs fp with
        | true =>
          have htr : Event.bootstrapEnv ∈ (Bootstrap env s).2.trace := by
            cases hbe : s.faults.bootstrapEnv <;>
              simp [Bootstrap, hl, hc, hfpr, certByFingerprintOp, h1, hstore,
                bootstrapEnvOp, hbe, logEvent, ht]
          refine ⟨iff_of_false (not_not_intro htr) ?_, fun h => absurd htr h⟩
          simp [hfpr, hstore]
        | false =>
          cases h2 : s.faults.addCert with
          | some e2 =>
            have hb : Bootstrap env s
                = (Except.error e2,
                   logEvent (Event.addCert c.name) (logEvent (Event.certByFingerprint fp) s)) := by
              simp [Bootstrap, hl, hc, hfpr, certByFingerprintOp, h1, hstore, addCertOp,
                h2, logEvent]
            rw [hb]
            refine ⟨iff_of_true (by simp [logEvent, ht]) ?_, fun _ => ⟨e2, rfl⟩⟩
            exact Or.inr ⟨c, rfl, Or.inr ⟨fp, hfpr, Or.inr ⟨Or.inr ⟨rfl, hstore⟩,
              Or.inl (by simp)⟩⟩⟩
          | none =>
            have htr : Event.bootstrapEnv ∈ (Bootstrap env s).2.trace := by
              cases hbe : s.faults.bootstrapEnv <;>
                simp [Bootstrap, hl, hc, hfpr, certByFingerprintOp, h1, hstore, addCertOp,
                  h2, hfpc, bootstrapEnvOp, hbe, logEvent, ht]
            refine ⟨iff_of_false (not_not_intro htr) ?_, fun h => absurd htr h⟩
            simp [hfpr, hstore]
      | some e1 =>
        cases e1 with
        | notFound =>
          cases h2 : s.faults.addCert with
          | some e2 =>
            have hb : Bootstrap env s
                = (Except.error e2,
                   logEvent (Event.addCert c.name) (logEvent (Event.certByFingerprint fp) s)) := by
              simp [Bootstrap, hl, hc, hfpr, certByFingerprintOp, h1, addCertOp, h2, logEvent]
            rw [hb]
            refine ⟨iff_of_true (by simp [logEvent, ht]) ?_, fun _ => ⟨e2, rfl⟩⟩
            exact Or.inr ⟨c, rfl, Or.inr ⟨fp, hfpr, Or.inr ⟨Or.inl rfl, Or.inl (by simp)⟩⟩⟩
          | none =>
            cases hstore : hasCertFp s.certs fp with
            | true =>
              have hb : Bootstrap env s
                  = (Except.error GoError.alreadyExists,
                     logEvent (Event.addCert c.name)
                       (logEvent (Event.certByFingerprint fp) s)) := by
                simp [Bootstrap, hl, hc, hfpr, certByFingerprintOp, h1, addCertOp, h2,
                  hfpc, hstore, logEvent]
              rw [hb]
              refine ⟨iff_of_true (by simp [logEvent, ht]) ?_,
                fun _ => ⟨GoError.alreadyExists, rfl⟩⟩
              exact Or.inr ⟨c, rfl, Or.inr ⟨fp, hfpr, Or.inr ⟨Or.inl rfl, Or.inr hstore⟩⟩⟩
            | false =>
              have htr : Event.bootstrapEnv ∈ (Bootstrap env s).2.trace := by
                cases hbe : s.faults.bootstrapEnv <;>
                  simp [Bootstrap, hl, hc, hfpr, certByFingerprintOp, h1, addCertOp, h2,
                    hfpc, hstore, bootstrapEnvOp, hbe, logEvent, ht]
              refine ⟨iff_of_false (not_not_intro htr) ?_, fun h => absurd htr h⟩
              simp [hfpr, hstore]
        | alreadyExists =>
          have hb : Bootstrap env s
              = (Except.error GoError.alreadyExists,
                 logEvent (Event.certByFingerprint fp) s) := by
            simp [Bootstrap, hl, hc, hfpr, certByFingerprintOp, h1, logEvent]
          rw [hb]
          refine ⟨iff_of_true (by simp [logEvent, ht]) ?_,
            fun _ => ⟨GoError.alreadyExists, rfl⟩⟩
          exact Or.inr ⟨c, rfl, Or.inr ⟨fp, hfpr, Or.inl ⟨GoError.alreadyExists, rfl, by simp⟩⟩⟩
        | other msg =>
          have hb : Bootstrap env s
              = (Except.error (GoError.other msg), logEvent (Event.certByFingerprint fp) s) := by
            simp [Bootstrap, hl, hc, hfpr, certByFingerprintOp, h1, logEvent]
          rw [hb]
          refine ⟨iff_of_true (by simp [logEvent, ht]) ?_,
            fun _ => ⟨GoError.other msg, rfl⟩⟩
          exact Or.inr ⟨c, rfl, Or.inr ⟨fp, hfpr, Or.inl ⟨GoError.other msg, rfl, by simp⟩⟩⟩

/-- Claim C2, witness: at the concrete local environment and the
already-exists fault state the hypotheses hold and the trust step's
failure yields an error result. -/
theorem bootstrap_trust_failure_characterization_witness :
    ∃ e, (Bootstrap envL sAE).1 = Except.error e :=
  (bootstrap_trust_failure_characterization envL sAE rfl rfl).2 (by decide)

/-- Claim C3: `Destroy` first enumerates the open ingress rules; when
any exist it closes them all before delegating to the generic destroy
strategy, when none are open it makes no close-ports call and
proceeds without error, and a failure at the enumeration, the
closing, or the generic destroy aborts the remaining steps and is
returned. -/
theorem destroy_closes_rules_then_delegates (env : environ) (s : RawState) (ht : s.trace = []) :
    (s.faults.ingressRules = none → s.faults.closePorts = none →
        ((Destroy env s).2.rules = []
        ∧ (s.faults.destroyEnv = none → (Destroy env s).1 = Except.ok ())
        ∧ (s.rules = [] →
            (Destroy env s).2.trace = [Event.ingressRules, Event.destroyEnv]
            ∧ ∀ r, Event.closePorts r ∉ (Destroy env s).2.trace)
        ∧ (s.rules ≠ [] →
            (Destroy env s).2.trace
              = [Event.ingressRules, Event.closePorts s.rules, Event.destroyEnv])))
    ∧ (∀ e, s.faults.ingressRules = some e →
        (Destroy env s).1 = Except.error e
        ∧ (Destroy env s).2.trace = [Event.ingressRules])
    ∧ (∀ e, s.faults.ingressRules = none → s.faults.closePorts = some e → s.rules ≠ [] →
        (Destroy env s).1 = Except.error e
        ∧ (Destroy env s).2.trace = [Event.ingressRules, Event.closePorts s.rules])
    ∧ (∀ e, s.faults.ingressRules = none → s.faults.closePorts = none →
        s.faults.destroyEnv = some e → (Destroy env s).1 = Except.error e) := by
  have hclose : s.rules.filter (fun r => !(s.rules.contains r)) = [] := by
    rw [List.filter_eq_nil_iff]
    intro a ha
    simp [ha]
  refine ⟨?_, ?_, ?_, ?_⟩
  · intro h1 h2
    by_cases hr : s.rules = []
    · refine ⟨?_, ?_, fun _ => ⟨?_, ?_⟩, fun hcontra => absurd hr hcontra⟩ <;>
        cases hd : s.faults.destroyEnv <;>
          simp_all [Destroy, ingressRulesOp, closePortsOp, destroyEnvOp, h1, h2, hr, hd, logEvent]
    · have hlen : s.rules.length > 0 := List.length_pos.mpr hr
      refine ⟨?_, ?_, fun hcontra => absurd hcontra hr, fun _ => ?_⟩ <;>
        cases hd : s.faults.destroyEnv <;>
          simp_all [Destroy, ingressRulesOp, closePortsOp, destroyEnvOp, h1, h2, hlen, hd,
            logEvent, hclose]
  · intro e h1
    simp [Destroy, ingressRulesOp, h1, logEvent, ht]
  · intro e h1 h2 hr
    have hlen : s.rules.length > 0 := List.length_pos.mpr hr
    simp [Destroy, ingressRulesOp, closePortsOp, h1, h2, hlen, logEvent, ht]
  · intro e h1 h2 h3
    by_cases hr : s.rules = []
    · simp [Destroy, ingressRulesOp, closePortsOp, destroyEnvOp, h1, h2, h3, hr, logEvent]
    · have hlen : s.rules.length > 0 := List.length_pos.mpr hr
      simp [Destroy, ingressRulesOp, closePortsOp, destroyEnvOp, h1, h2, h3, hlen, logEvent]

/-- Claim C3, witness: on a fault-free hypervisor with one open rule,
`Destroy` ends with no open rules, succeeds, and its trace closes the
rules between enumerating them and the generic destroy. -/
theorem destroy_closes_rules_then_delegates_witness :
    (Destroy envA sRules).2.rules = []
    ∧ (sRules.faults.destroyEnv = none → (Destroy envA sRules).1 = Except.ok ())
    ∧ (sRules.rules = [] →
        (Destroy envA sRules).2.trace = [Event.ingressRules, Event.destroyEnv]
        ∧ ∀ r, Event.closePorts r ∉ (Destroy envA sRules).2.trace)
    ∧ (sRules.rules ≠ [] →
        (Destroy envA sRules).2.trace
          = [Event.ingressRules, Event.closePorts sRules.rules, Event.destroyEnv]) :=
  (destroy_closes_rules_then_delegates envA sRules rfl).1 rfl rfl

/-- Claim C4: on a local hypervisor whose trust store lacks the
client certificate's fingerprint, Bootstrap registers the certificate
exactly once — afterwards exactly one stored certificate answers to
that fingerprint — and then delegates to the generic bootstrap
strategy. -/
theorem bootstrap_registers_certificate_once (env : environ) (s : RawState) (c : Cert)
    (fp : String) (hl : env.isLocal = true) (hc : getCerts env.cloud = some c)
    (hfp : Cert.Fingerprint c = Except.ok fp)
    (habsent : hasCertFp s.certs fp = false)
    (hf1 : s.faults.certByFingerprint = none) (hf2 : s.faults.addCert = none)
    (ht : s.trace = []) :
    (Bootstrap env s).2.certs = s.certs ++ [c]
    ∧ countFp (Bootstrap env s).2.certs fp = 1
    ∧ (Bootstrap env s).2.trace
        = [Event.certByFingerprint fp, Event.addCert c.name, Event.bootstrapEnv] := by
  have hfpc : Cert.fp c = fp := fp_of_fingerprint_ok hfp
  have hcerts : (Bootstrap env s).2.certs = s.certs ++ [c] ∧
      (Bootstrap env s).2.trace
        = [Event.certByFingerprint fp, Event.addCert c.name, Event.bootstrapEnv] := by
    cases hb : s.faults.bootstrapEnv <;>
      simp [Bootstrap, hl, hc, hfp, certByFingerprintOp, hf1, habsent, addCertOp,
        hfpc, hf2, bootstrapEnvOp, hb, logEvent, ht]
  refine ⟨hcerts.1, ?_, hcerts.2⟩
  rw [hcerts.1]
  have hnil : s.certs.filter (fun c2 => Cert.fp c2 == fp) = [] := by
    rw [List.filter_eq_nil_iff]
    intro a ha
    simpa using List.any_eq_false.mp
      (by simpa [hasCertFp] using habsent :
        s.certs.any (fun c2 => Cert.fp c2 == fp) = false) a ha
  simp [countFp, List.filter_append, hnil, hfpc]

/-- Claim C4, witness: on the clean local setup, Bootstrap leaves the
store holding exactly the client certificate, with one certificate
answering to its fingerprint, and the trace shows lookup,
registration, then delegation. -/
theorem bootstrap_registers_certificate_once_witness :
    (Bootstrap envL sClean).2.certs = sClean.certs ++ [certW]
    ∧ countFp (Bootstrap envL sClean).2.certs "sha256:PEMDATA" = 1
    ∧ (Bootstrap envL sClean).2.trace
        = [Event.certByFingerprint "sha256:PEMDATA", Event.addCert certW.name,
           Event.bootstrapEnv] :=
  bootstrap_registers_certificate_once envL sClean certW "sha256:PEMDATA"
    rfl rfl (by decide) (by decide) rfl rfl rfl

/-- Claim C5: with a remote (non-local) hypervisor, Bootstrap is
exactly the delegation to the generic strategy — no fingerprint
lookup, no certificate registration — and DestroyController performs
no certificate removal call. -/
theorem remote_hypervisor_no_certificate_calls (env : environ) (s : RawState) (ctrl : String)
    (hl : env.isLocal = false) (ht : s.trace = []) :
    Bootstrap env s = bootstrapEnvOp s
    ∧ (∀ e ∈ (Bootstrap env s).2.trace, certEvent e = false)
    ∧ (∀ e ∈ (DestroyController env ctrl s).2.trace, certEvent e = false) := by
  have h1 : Bootstrap env s = bootstrapEnvOp s := by simp [Bootstrap, hl]
  refine ⟨h1, ?_, ?_⟩
  · rw [h1]
    intro e he
    cases hb : s.faults.bootstrapEnv <;>
      simp [bootstrapEnvOp, hb, logEvent, ht] at he <;> simp [he, certEvent]
  · intro e he
    obtain ⟨evs1, hs1, hp1⟩ := destroy_trace_shape env s
    unfold DestroyController at he
    cases hD : Destroy env s with
    | mk r1 s1 =>
      rw [hD] at hs1
      cases r1 with
      | error e1 =>
        rw [hD] at he; simp at he
        rw [hs1, ht] at he; simp at he
        exact (hp1 e he).1
      | ok u =>
        obtain ⟨evs2, hs2, hp2⟩ := sweep_trace_shape env ctrl s1
        rw [hD] at he
        simp only at he
        cases hS : destroyHostedModelResources env ctrl s1 with
        | mk r2 s2 =>
          rw [hS] at hs2
          cases r2 with
          | error e2 =>
            rw [hS] at he; simp at he
            rw [hs2, hs1, ht] at he; simp at he
            rcases he with h | h
            · exact (hp1 e h).1
            · exact hp2 e h
          | ok u2 =>
            rw [hS] at he; simp [hl] at he
            rw [hs2, hs1, ht] at he; simp at he
            rcases he with h | h
            · exact (hp1 e h).1
            · exact hp2 e h

/-- Claim C5, witness: on the remote scenario environment no event of
either Bootstrap or DestroyController touches the trust store. -/
theorem remote_hypervisor_no_certificate_calls_witness :
    Bootstrap envA s0 = bootstrapEnvOp s0
    ∧ (∀ e ∈ (Bootstrap envA s0).2.trace, certEvent e = false)
    ∧ (∀ e ∈ (DestroyController envA "ctrl-1" s0).2.trace, certEvent e = false) :=
  remote_hypervisor_no_certificate_calls envA s0 "ctrl-1" rfl rfl

/-- Claim C6: profile initialization checks the profile named
`juju-` + environment name; if present it succeeds with no create
call, if absent it creates it with exactly the default settings
`boot.autostart = "true"`, `security.nesting = "true"`; and running
it twice never errors and never duplicates the profile. -/
theorem initProfile_checks_then_creates (env : environ) (s : RawState)
    (hf1 : s.faults.hasProfile = none) (hf2 : s.faults.createProfile = none)
    (ht : s.trace = []) :
    (hasProfileStore s.profiles (profileName env) = true →
        initProfile env s = (Except.ok (), logEvent (Event.hasProfile (profileName env)) s))
    ∧ (hasProfileStore s.profiles (profileName env) = false →
        (initProfile env s).1 = Except.ok ()
        ∧ (initProfile env s).2.profiles
            = s.profiles ++ [(profileName env, defaultProfileConfig)]
        ∧ (initProfile env s).2.trace =
            [Event.hasProfile (profileName env),
             Event.createProfile (profileName env) defaultProfileConfig])
    ∧ ((initProfile env ((initProfile env s).2)).1 = Except.ok ()
        ∧ (initProfile env ((initProfile env s).2)).2.profiles = (initProfile env s).2.profiles)
    ∧ defaultProfileConfig = [("boot.autostart", "true"), ("security.nesting", "true")] := by
  refine ⟨?_, ?_, ?_, rfl⟩
  · intro h
    simp [initProfile, hasProfileOp, hf1, h]
  · intro h
    simp [initProfile, hasProfileOp, createProfileOp, hf1, hf2, h, logEvent, ht]
  · have key : ∀ s1 : RawState, s1.faults.hasProfile = none →
        hasProfileStore s1.profiles (profileName env) = true →
        (initProfile env s1).1 = Except.ok () ∧ (initProfile env s1).2.profiles = s1.profiles := by
      intro s1 hA hB
      simp [initProfile, hasProfileOp, hA, hB, logEvent]
    by_cases h : hasProfileStore s.profiles (profileName env) = true
    · have h2 : initProfile env s
          = (Except.ok (), logEvent (Event.hasProfile (profileName env)) s) := by
        simp [initProfile, hasProfileOp, hf1, h]
      rw [h2]
      exact key _ (by simp [logEvent, hf1]) (by simp [logEvent, h])
    · simp only [Bool.not_eq_true] at h
      have h2 : (initProfile env s).2.profiles
          = s.profiles ++ [(profileName env, defaultProfileConfig)] := by
        simp [initProfile, hasProfileOp, createProfileOp, hf1, hf2, h, logEvent]
      have h3 : (initProfile env s).2.faults = s.faults := by
        simp [initProfile, hasProfileOp, createProfileOp, hf1, hf2, h, logEvent]
      exact key _ (by rw [h3]; exact hf1) (by rw [h2]; simp [hasProfileStore])

/-- Claim C6, witness: for environment name `controller` on a clean
hypervisor, the created profile is `juju-controller` with exactly the
default settings, and a second initialization is a no-op. -/
theorem initProfile_checks_then_creates_witness :
    (hasProfileStore sClean.profiles (profileName envL) = true →
        initProfile envL sClean
          = (Except.ok (), logEvent (Event.hasProfile (profileName envL)) sClean))
    ∧ (hasProfileStore sClean.profiles (profileName envL) = false →
        (initProfile envL sClean).1 = Except.ok ()
        ∧ (initProfile envL sClean).2.profiles
            = sClean.profiles ++ [("juju-controller", defaultProfileConfig)]
        ∧ (initProfile envL sClean).2.trace =
            [Event.hasProfile "juju-controller",
             Event.createProfile "juju-controller" defaultProfileConfig])
    ∧ ((initProfile envL ((initProfile envL sClean).2)).1 = Except.ok ()
        ∧ (initProfile envL ((initProfile envL sClean).2)).2.profiles
            = (initProfile envL sClean).2.profiles)
    ∧ defaultProfileConfig = [("boot.autostart", "true"), ("security.nesting", "true")] :=
  initProfile_checks_then_creates envL sClean rfl rfl rfl

/-- Claim C7: environment construction is all-or-nothing — an
environment object is produced exactly when configuration validation,
namespace derivation, the hypervisor connection and profile
initialization all succeed, and each failing step aborts construction
with its error and no environment. -/
theorem newEnviron_all_or_nothing (isLocal : Bool) (spec : CloudSpec) (cfg : Config)
    (nrp : CloudSpec → Bool → Except GoError Unit) (s : RawState) :
    (∀ env s1, newEnviron isLocal spec cfg nrp s = (Except.ok env, s1) →
        cfg.valid = true ∧ cfg.uuid ≠ "" ∧ nrp spec isLocal = Except.ok ()
        ∧ (initProfile env s).1 = Except.ok ()
        ∧ env = builtEnviron isLocal spec cfg)
    ∧ (cfg.valid = false →
        (newEnviron isLocal spec cfg nrp s).1 = Except.error (GoError.other "invalid config"))
    ∧ (cfg.valid = true → cfg.uuid = "" →
        (newEnviron isLocal spec cfg nrp s).1 = Except.error (GoError.other "invalid UUID"))
    ∧ (∀ e, cfg.valid = true → cfg.uuid ≠ "" → nrp spec isLocal = Except.error e →
        (newEnviron isLocal spec cfg nrp s).1 = Except.error e)
    ∧ (∀ e, cfg.valid = true → cfg.uuid ≠ "" → nrp spec isLocal = Except.ok () →
        (initProfile (builtEnviron isLocal spec cfg) s).1 = Except.error e →
        (newEnviron isLocal spec cfg nrp s).1 = Except.error e) := by
  refine ⟨?_, ?_, ?_, ?_, ?_⟩
  · intro env s1 h
    by_cases hv : cfg.valid = true
    · by_cases hu : cfg.uuid = ""
      · simp [newEnviron, newValidConfig, NewNamespace, hv, hu] at h
      · cases hn : nrp spec isLocal with
        | error e => simp [newEnviron, newValidConfig, NewNamespace, hv, hu, hn] at h
        | ok u =>
          cases u
          rw [newEnviron_unfold_success isLocal spec cfg nrp s hv hu hn] at h
          cases hip : initProfile (builtEnviron isLocal spec cfg) s with
          | mk r1 sA =>
            rw [hip] at h
            cases r1 with
            | error e => simp at h
            | ok u2 =>
              cases u2
              simp only [Prod.mk.injEq, Except.ok.injEq] at h
              obtain ⟨henv, hs1⟩ := h
              subst henv
              exact ⟨hv, hu, by simp [hn], by simp [hip], rfl⟩
    · simp only [Bool.not_eq_true] at hv
      simp [newEnviron, newValidConfig, hv] at h
  · intro hv
    simp [newEnviron, newValidConfig, hv]
  · intro hv hu
    simp [newEnviron, newValidConfig, NewNamespace, hv, hu]
  · intro e hv hu hn
    simp [newEnviron, newValidConfig, NewNamespace, hv, hu, hn]
  · intro e hv hu hn hip
    rw [newEnviron_unfold_success isLocal spec cfg nrp s hv hu hn]
    cases hip2 : initProfile (builtEnviron isLocal spec cfg) s with
    | mk r1 sA =>
      rw [hip2] at hip
      cases r1 with
      | error e2 => simp at hip; subst hip; simp
      | ok u2 => simp at hip

/-- Claim C8: DestroyController runs ordinary Destroy, then the
hosted-model sweep, then — locally only — certificate removal; the
first failing step returns its error immediately and no later step's
call is made. -/
theorem destroyController_order_and_first_error (env : environ) (ctrl : String) (s : RawState)
    (ht : s.trace = []) :
    (∀ e, (Destroy env s).1 = Except.error e →
        DestroyController env ctrl s = (Except.error e, (Destroy env s).2)
        ∧ ∀ ev ∈ (DestroyController env ctrl s).2.trace,
            sweepEvent ev = false ∧ certEvent ev = false)
    ∧ (∀ e, (Destroy env s).1 = Except.ok () →
        (destroyHostedModelResources env ctrl (Destroy env s).2).1 = Except.error e →
        DestroyController env ctrl s
          = (Except.error e, (destroyHostedModelResources env ctrl (Destroy env s).2).2)
        ∧ ∀ ev ∈ (DestroyController env ctrl s).2.trace, certEvent ev = false)
    ∧ ((Destroy env s).1 = Except.ok () →
        (destroyHostedModelResources env ctrl (Destroy env s).2).1 = Except.ok () →
        DestroyController env ctrl s
          = (if env.isLocal then
               removeCertificate env (destroyHostedModelResources env ctrl (Destroy env s).2).2
             else (Except.ok (), (destroyHostedModelResources env ctrl (Destroy env s).2).2))) := by
  obtain ⟨evs1, hs1, hp1⟩ := destroy_trace_shape env s
  cases hD : Destroy env s with
  | mk r1 s1 =>
    rw [hD] at hs1
    dsimp only at hs1
    refine ⟨?_, ?_, ?_⟩
    · intro e h
      dsimp only at h ⊢
      subst h
      have hDC : DestroyController env ctrl s = (Except.error e, s1) := by
        simp [DestroyController, hD]
      refine ⟨hDC, ?_⟩
      rw [hDC]
      intro ev hev
      dsimp only at hev
      rw [hs1, ht] at hev
      simp at hev
      exact ⟨(hp1 ev hev).2, (hp1 ev hev).1⟩
    · intro e h hS0
      dsimp only at h hS0 ⊢
      subst h
      obtain ⟨evs2, hs2, hp2⟩ := sweep_trace_shape env ctrl s1
      cases hS : destroyHostedModelResources env ctrl s1 with
      | mk r2 s2 =>
        rw [hS] at hs2 hS0
        dsimp only at hs2 hS0
        subst hS0
        have hDC : DestroyController env ctrl s = (Except.error e, s2) := by
          simp [DestroyController, hD, hS]
        refine ⟨hDC, ?_⟩
        rw [hDC]
        intro ev hev
        dsimp only at hev
        rw [hs2, hs1, ht] at hev
        simp at hev
        rcases hev with h | h
        · exact (hp1 ev h).1
        · exact hp2 ev h
    · intro h1 h2
      dsimp only at h1 h2 ⊢
      subst h1
      cases hS : destroyHostedModelResources env ctrl s1 with
      | mk r2 s2 =>
        rw [hS] at h2
        dsimp only at h2
        subst h2
        simp [DestroyController, hD, hS]

/-- Claim C8, witness: when enumerating ingress rules fails, the
whole DestroyController fails with that error and neither the sweep
nor the certificate removal is called. -/
theorem destroyController_order_and_first_error_witness :
    DestroyController envA "ctrl-1" sIngFail
      = (Except.error (GoError.other "boom"), (Destroy envA sIngFail).2)
    ∧ ∀ ev ∈ (DestroyController envA "ctrl-1" sIngFail).2.trace,
        sweepEvent ev = false ∧ certEvent ev = false :=
  (destroyController_order_and_first_error envA "ctrl-1" sIngFail rfl).1
    (GoError.other "boom") (by decide)

/-- Claim C9: certificate removal tolerates absence — a not-found
outcome of the remove-by-fingerprint call (whether the store lacks
the certificate or the call reports not-found) yields success; any
other removal failure is returned as an error. -/
theorem removeCertificate_idempotent_absence (env : environ) (s : RawState) (c : Cert)
    (fp : String) (hrc : s.remoteCert = some c) (hfp : Cert.Fingerprint c = Except.ok fp) :
    (s.faults.removeCert = none → hasCertFp s.certs fp = false →
        removeCertificate env s = (Except.ok (), logEvent (Event.removeCertByFingerprint fp) s))
    ∧ (s.faults.removeCert = some GoError.notFound →
        (removeCertificate env s).1 = Except.ok ())
    ∧ (∀ e, s.faults.removeCert = some e → e ≠ GoError.notFound →
        (removeCertificate env s).1 = Except.error e)
    ∧ (s.faults.removeCert = none → hasCertFp s.certs fp = true →
        (removeCertificate env s).1 = Except.ok ()
        ∧ (removeCertificate env s).2.certs = s.certs.filter fun c2 => !(Cert.fp c2 == fp)) := by
  refine ⟨?_, ?_, ?_, ?_⟩
  · intro h1 h2
    simp [removeCertificate, hrc, hfp, removeCertByFingerprintOp, h1, h2]
  · intro h1
    simp [removeCertificate, hrc, hfp, removeCertByFingerprintOp, h1]
  · intro e h1 h2
    cases e <;> simp_all [removeCertificate, hrc, hfp, removeCertByFingerprintOp]
  · intro h1 h2
    simp [removeCertificate, hrc, hfp, removeCertByFingerprintOp, h1, h2, logEvent]

/-- Claim C9, witness: removing the connection certificate from an
empty trust store (the not-found case) returns success. -/
theorem removeCertificate_idempotent_absence_witness :
    removeCertificate envL sRC
      = (Except.ok (), logEvent (Event.removeCertByFingerprint "sha256:PEMDATA") sRC) :=
  (removeCertificate_idempotent_absence envL sRC certW "sha256:PEMDATA" rfl (by decide)).1
    rfl (by decide)

/-- Claim C10: SetConfig is atomic on error — invalid configuration
returns an error and leaves the stored snapshot (as `Config` reads
it) unchanged; the snapshot is replaced exactly when validation
succeeds. -/
theorem setConfig_atomic_on_error (env : environ) (cfg : Config) :
    (cfg.valid = false →
        (SetConfig env cfg).1 = Except.error (GoError.other "invalid config")
        ∧ environ.Config (SetConfig env cfg).2 = environ.Config env)
    ∧ (cfg.valid = true →
        (SetConfig env cfg).1 = Except.ok ()
        ∧ environ.Config (SetConfig env cfg).2 = cfg) := by
  constructor
  · intro h; simp [SetConfig, newValidConfig, h, environ.Config]
  · intro h; simp [SetConfig, newValidConfig, h, environ.Config]

end JujuLxd

